import Mathlib

/-! Shallow embedding of the chunking and section-tagging core of the
docling-arabic repository (source files `main.py`, `sample_pdf.py` and
`main_docling_arabic.py`).  Python strings are modelled as Lean `String`
(a sequence of unicode code points, matching Python's `len`/slicing on
`str`), Python integers as `Int`, and the Python primitives the source
uses (`str.split`, `str.strip`, `str.lower`, slices, `range`,
`re.sub`/`re.match` on the concrete patterns of the source) as executable
Lean functions mirroring their semantics.  Fallible code (`range` with a
zero step raises `ValueError`) is modelled with `Except`. -/

/-- Python whitespace test used by `str.split()` / `str.strip()`. -/
def isWS (c : Char) : Bool := c.isWhitespace

/-- Python `str.strip()` on the code-point list of a string. -/
def pyStrip (cs : List Char) : List Char :=
  ((cs.dropWhile isWS).reverse.dropWhile isWS).reverse

/-- Worker for `str.split()` with no separator: split on runs of
whitespace, discarding empty pieces.  `acc` holds the (reversed) word
currently being read. -/
def splitWordsAux : List Char → List Char → List (List Char)
  | [], acc => if acc.isEmpty then [] else [acc.reverse]
  | c :: cs, acc =>
    if isWS c then
      if acc.isEmpty then splitWordsAux cs []
      else acc.reverse :: splitWordsAux cs []
    else splitWordsAux cs (c :: acc)

/-- Python `s.split()` at the code-point level. -/
def pySplitChars (cs : List Char) : List (List Char) := splitWordsAux cs []

/-- Python `s.split()` (no argument: split on whitespace runs, drop
empty strings). -/
def pySplit (s : String) : List String := (pySplitChars s.data).map String.mk

/-- Python `' '.join(words)` at the code-point level. -/
def joinWithSpace : List (List Char) → List Char
  | [] => []
  | [w] => w
  | w :: x :: ws => w ++ ' ' :: joinWithSpace (x :: ws)

/-- Python `' '.join(words)`. -/
def joinWords (ws : List String) : String :=
  String.mk (joinWithSpace (ws.map String.data))

/-- Python `s.split('\n')`: split on every newline, keeping empty
pieces (`''.split('\n') == ['']`). -/
def splitOnNL : List Char → List (List Char)
  | [] => [[]]
  | c :: cs =>
    if c = '\n' then [] :: splitOnNL cs
    else
      match splitOnNL cs with
      | h :: t => (c :: h) :: t
      | [] => [[c]]

/-- Python substring test `need in hay` on code-point lists. -/
def listContains (hay need : List Char) : Bool :=
  (List.range (hay.length + 1)).any (fun i => need.isPrefixOf (hay.drop i))

/-- Python `str.lower()` restricted to the character repertoire this
corpus exercises: ASCII letters and the Latin-1 uppercase letters used by
the French keyword lists.  Arabic letters are uncased and unchanged. -/
def pyLowerChar (c : Char) : Char :=
  if 'A' ≤ c ∧ c ≤ 'Z' then Char.ofNat (c.toNat + 32)
  else if 0xC0 ≤ c.toNat ∧ c.toNat ≤ 0xDE ∧ c.toNat ≠ 0xD7 then Char.ofNat (c.toNat + 32)
  else c

/-- Cased uppercase letter (ASCII plus Latin-1), for Python `str.isupper`. -/
def isCasedUpper (c : Char) : Bool :=
  ('A' ≤ c && c ≤ 'Z') || (0xC0 ≤ c.toNat && c.toNat ≤ 0xDE && c.toNat != 0xD7)

/-- Cased lowercase letter (ASCII plus Latin-1), for Python `str.isupper`. -/
def isCasedLower (c : Char) : Bool :=
  ('a' ≤ c && c ≤ 'z') || (0xDF ≤ c.toNat && c.toNat ≤ 0xFF && c.toNat != 0xF7)

/-- Python `s.isupper()`: at least one cased character and no lowercase
cased character (on the Latin repertoire of this corpus). -/
def pyIsUpper (cs : List Char) : Bool :=
  cs.any isCasedUpper && cs.all (fun c => !isCasedLower c)

/-- The character class `[ًٌٍَُِّْ]` of the source's diacritic-stripping
regex: exactly the Arabic marks U+064B through U+0652. -/
def isArabicDiacritic (c : Char) : Bool :=
  0x64B ≤ c.toNat && c.toNat ≤ 0x652

/-- Python `re.sub(r'[ًٌٍَُِّْ]', '', s)`. -/
def stripDiacritics (cs : List Char) : List Char :=
  cs.filter (fun c => !isArabicDiacritic c)

mutual

/-- Python `re.sub(r'\s+', ' ', s)`: collapse every whitespace run to a
single space. -/
def collapseWS : List Char → List Char
  | [] => []
  | c :: cs =>
    if isWS c then ' ' :: collapseWSRun cs
    else c :: collapseWS cs

/-- Inside a whitespace run (the single replacement space is already
emitted): skip further whitespace. -/
def collapseWSRun : List Char → List Char
  | [] => []
  | c :: cs =>
    if isWS c then collapseWSRun cs
    else c :: collapseWS cs

end

/-- Python `re.sub(r'^[•\-\*]\s*', '', line)` (main.py bullet cleanup):
the pattern is anchored, so at most the leading bullet character and the
whitespace run after it are removed. -/
def stripBullet (cs : List Char) : List Char :=
  match cs with
  | c :: rest =>
    if c = '•' || c = '-' || c = '*' then rest.dropWhile isWS else cs
  | [] => []

/-- Python `re.sub(r'^[•\-\*\+]\s*', '', line)` (sample_pdf.py bullet
cleanup, which also strips a leading `+`). -/
def stripBulletPlus (cs : List Char) : List Char :=
  match cs with
  | c :: rest =>
    if c = '•' || c = '-' || c = '*' || c = '+' then rest.dropWhile isWS else cs
  | [] => []

/-- Python `\d` on the digit repertoires occurring in this corpus:
ASCII digits and Arabic-Indic digits U+0660-U+0669. -/
def isPyDigit (c : Char) : Bool :=
  c.isDigit || (0x660 ≤ c.toNat && c.toNat ≤ 0x669)

/-- Tail of the regexes `[\.\-\:]\s*.+`: a punctuation character followed
by optional whitespace and at least one non-newline character (`.` does
not match `\n`; `\s*` may backtrack, so a whitespace character other than
newline can also satisfy the final `.+`). -/
def punctThenContent : List Char → Bool
  | p :: t =>
    (p = '.' || p = '-' || p = ':') &&
      (!(t.dropWhile isWS).isEmpty || t.any (fun c => isWS c && c != '\n'))
  | [] => false

/-- Boolean of `re.match(r'^(\d+|[٠-٩]+)[\.\-\:]\s*.+', s)`.  In Python 3
`\d` already covers the Arabic-Indic digits, so the alternation reduces
to a maximal digit run followed by punctuation and content. -/
def numberedHeadingMatch (cs : List Char) : Bool :=
  !(cs.takeWhile isPyDigit).isEmpty && punctThenContent (cs.dropWhile isPyDigit)

/-- Characters matched by `[IVX]` under `re.IGNORECASE`. -/
def isRomanChar (c : Char) : Bool :=
  (['I', 'V', 'X', 'i', 'v', 'x'] : List Char).contains c

/-- Boolean of `re.match(r'^[IVX]+[\.\-\:]\s*.+', s, re.IGNORECASE)`. -/
def romanHeadingMatch (cs : List Char) : Bool :=
  !(cs.takeWhile isRomanChar).isEmpty && punctThenContent (cs.dropWhile isRomanChar)

/-- A page as produced by the extraction collaborators:
`{"page": i + 1, "text": ...}`. -/
structure PageText where
  page : Nat
  text : String
deriving DecidableEq

/-- A chunk `{"text": ..., "page": ...}` (sample_pdf.py nests the page
under `"meta"`; the payload is the same two fields). -/
structure Chunk where
  text : String
  page : Nat
deriving DecidableEq

/-- An enriched chunk `{"text": ..., "meta": {"page": ..., "section": ...}}`,
flattened. -/
structure EnrichedChunk where
  text : String
  page : Nat
  sec : String
deriving DecidableEq

/-- The index list of Python `range(0, n, step)` as used by the chunkers
(`range` raises `ValueError` on a zero step; a negative step starting
from 0 with a non-negative stop yields no indices). -/
def pyRangeIdx (n : Nat) (step : Int) : Except String (List Nat) :=
  if step = 0 then Except.error "range() arg 3 must not be zero"
  else if step < 0 then Except.ok []
  else Except.ok ((List.range ((n + step.toNat - 1) / step.toNat)).map (fun k => k * step.toNat))

/-- Python slice `xs[a : b]` with a non-negative lower bound `a` and an
arbitrary (possibly negative) upper bound `b`, as in `words[i:i + chunk_size]`. -/
def pySlice {α : Type} (xs : List α) (a : Nat) (b : Int) : List α :=
  (xs.take (if b < 0 then ((xs.length : Int) + b).toNat else min b.toNat xs.length)).drop a

/-- Body of the page loop shared verbatim by `chunk_text_pages` (main.py)
and `chunk_plain_text` (sample_pdf.py):
`words = text.split()`, then for `i in range(0, len(words), chunk_size - overlap)`
emit `" ".join(words[i:i + chunk_size])` tagged with the page number,
skipping empty windows. -/
def chunkPage (chunk_size overlap : Int) (p : PageText) : Except String (List Chunk) :=
  let words := pySplit p.text
  match pyRangeIdx words.length (chunk_size - overlap) with
  | Except.error e => Except.error e
  | Except.ok idxs =>
    Except.ok (idxs.filterMap (fun i =>
      let cw := pySlice words i ((i : Int) + chunk_size)
      if cw.isEmpty then none
      else some { text := joinWords cw, page := p.page }))

namespace MainPy

/-- The keyword list of `is_section_heading` in main.py. -/
def section_keywords : List String :=
  ["الوحدة", "وحدة",
   "الفصل", "فصل",
   "المقدمة", "مقدمة",
   "الخاتمة", "الأهداف", "أهداف",
   "المنهجية", "منهجية",
   "التقويم", "تقويم",
   "الباب", "القسم", "الجزء",
   "فترة المراجعة"]

/-- Leading alternatives of main.py's heading regex. -/
def headingRegexHeads : List String := ["الوحدة", "الفصل", "الباب"]

/-- Ordinal alternatives of main.py's heading regex. -/
def headingRegexOrdinals : List String :=
  ["الأول", "الثان", "الثالث", "الرابع", "الخامس", "السادس", "السابع", "الثامن"]

/-- Boolean of
`re.match(r'^(الوحدة|الفصل|الباب).+(الأول|الثان|الثالث|الرابع|الخامس|السادس|السابع|الثامن)', line)`:
the line starts with one of the three head words, and after it at least
one non-newline character precedes an occurrence of one of the ordinals. -/
def headingRegexMatch (cs : List Char) : Bool :=
  headingRegexHeads.any (fun a =>
    a.data.isPrefixOf cs &&
    (let rest := cs.drop a.data.length
     (List.range rest.length).any (fun j =>
       decide (1 ≤ j) && (rest.take j).all (fun c => c != '\n') &&
       headingRegexOrdinals.any (fun o => o.data.isPrefixOf (rest.drop j)))))

/-- `is_section_heading` of main.py.  The source first strips the line,
rejects empty or over-200-character lines, lowercases and applies
`replace('ا', 'ا')` (an identity substitution, kept here verbatim) and
`replace('إ', 'ا')`, then tests keywords, the heading regex, and the
short-line-with-colon rule. -/
def is_section_heading (line : String) : Bool :=
  let l := pyStrip line.data
  if l.isEmpty || decide (200 < l.length) then false
  else
    let line_clean :=
      ((l.map pyLowerChar).map (fun c => if c = 'ا' then 'ا' else c)).map
        (fun c => if c = 'إ' then 'ا' else c)
    if section_keywords.any (fun k => listContains line_clean k.data) then true
    else if headingRegexMatch l then true
    else if l.contains ':' && decide (l.length < 100) then true
    else false

/-- `extract_sections_from_pages` of main.py: for each page, split the
text on newlines, strip each line, keep classifier hits after bullet
cleanup and whitespace collapsing, subject to `section and len(section) > 3`. -/
def extract_sections_from_pages (pages : List PageText) : List String :=
  (pages.map (fun p =>
    (splitOnNL p.text.data).filterMap (fun line0 =>
      let line := pyStrip line0
      if is_section_heading (String.mk line) then
        let sec := pyStrip (collapseWS (stripBullet line))
        if !sec.isEmpty && decide (3 < sec.length) then some (String.mk sec) else none
      else none))).flatten

/-- `chunk_text_pages` of main.py: the per-page window loop of
`chunkPage`, pages processed in order, the first `range` error (zero
step) propagating as in Python. -/
def chunk_text_pages (pages : List PageText) (chunk_size overlap : Int) :
    Except String (List Chunk) :=
  match pages with
  | [] => Except.ok []
  | p :: ps =>
    match chunkPage chunk_size overlap p with
    | Except.error e => Except.error e
    | Except.ok cs =>
      match chunk_text_pages ps chunk_size overlap with
      | Except.error e => Except.error e
      | Except.ok rest => Except.ok (cs ++ rest)

/-- The inner matching loop of `assign_sections_smart`: first section
(in detection order) whose raw text occurs in the first 400 characters
of the chunk text. -/
def matchSec400 (sections : List String) (t : String) : Option String :=
  sections.find? (fun s => listContains (t.data.take 400) s.data)

/-- The chunk loop of `assign_sections_smart`, threading `current_section`. -/
def assignGo (sections : List String) : String → List Chunk → List EnrichedChunk
  | _, [] => []
  | cur, c :: cs =>
    let found := (matchSec400 sections c.text).getD cur
    { text := c.text, page := c.page, sec := found } :: assignGo sections found cs

/-- `assign_sections_smart` of main.py.  With no sections every chunk is
labelled `f"صفحة {page}"`; otherwise `current_section` starts at
`sections[0]` and is carried forward across non-matching chunks. -/
def assign_sections_smart (chunks : List Chunk) (sections : List String) :
    List EnrichedChunk :=
  match sections with
  | [] =>
    chunks.map (fun c => { text := c.text, page := c.page, sec := "صفحة " ++ toString c.page })
  | s0 :: _ => assignGo sections s0 chunks

end MainPy

namespace SamplePdf

/-- The keyword list of `is_likely_heading` in sample_pdf.py. -/
def heading_keywords : List String :=
  ["الوحدة", "وحدة", "الفصل", "فصل", "المقدمة", "مقدمة",
   "الخاتمة", "خاتمة", "الأهداف", "أهداف", "المنهجية", "منهجية",
   "التقويم", "تقويم", "الباب", "باب", "القسم", "قسم",
   "الجزء", "جزء", "الفرع", "فرع", "الدرس", "درس",
   "CHAPTER", "UNIT", "SECTION", "INTRODUCTION", "CONCLUSION",
   "OBJECTIVES", "METHODOLOGY", "ASSESSMENT", "LESSON"]

/-- `is_likely_heading` of sample_pdf.py (the `debug` parameter only
prints and is omitted): keyword test on the lowercased line, numbered
headings, short Arabic lines not ending in sentence punctuation, lines
with a colon, and short all-caps lines. -/
def is_likely_heading (line0 : String) : Bool :=
  let l := pyStrip line0.data
  if l.isEmpty || decide (200 < l.length) then false
  else
    let ll := l.map pyLowerChar
    if heading_keywords.any (fun k => listContains ll (k.data.map pyLowerChar)) then true
    else if numberedHeadingMatch l then true
    else if decide (10 < l.length) && decide (l.length < 100) &&
        decide (3 < (l.filter (fun c => 0x600 ≤ c.toNat && c.toNat ≤ 0x6FF)).length) &&
        !(match l.getLast? with
          | some c => (['.', '،', '؛', '!'] : List Char).contains c
          | none => false) then true
    else if (l.contains ':' || l.contains '：') && decide (l.length < 150) then true
    else if decide (l.length < 100) && pyIsUpper l && decide (5 < l.length) then true
    else false

/-- `extract_sections_from_text` of sample_pdf.py: split the whole text
on newlines, skip blank lines, keep classifier hits after bullet cleanup
and `strip()`, subject to `section and len(section) > 3`. -/
def extract_sections_from_text (text : String) : List String :=
  (splitOnNL text.data).filterMap (fun line0 =>
    let line := pyStrip line0
    if line.isEmpty then none
    else if is_likely_heading (String.mk line) then
      let sec := pyStrip (stripBulletPlus line)
      if !sec.isEmpty && decide (3 < sec.length) then some (String.mk sec) else none
    else none)

/-- `chunk_plain_text` of sample_pdf.py: identical window loop to
main.py's `chunk_text_pages`. -/
def chunk_plain_text (pages : List PageText) (chunk_size overlap : Int) :
    Except String (List Chunk) :=
  match pages with
  | [] => Except.ok []
  | p :: ps =>
    match chunkPage chunk_size overlap p with
    | Except.error e => Except.error e
    | Except.ok cs =>
      match chunk_plain_text ps chunk_size overlap with
      | Except.error e => Except.error e
      | Except.ok rest => Except.ok (cs ++ rest)

/-- The inner matching loop of sample_pdf's `assign_sections_to_chunks`:
first section whose diacritic-stripped text occurs in the stripped first
500 characters of the chunk, or whose raw text occurs in those 500
characters. -/
def matchSec500 (sections : List String) (t : String) : Option String :=
  sections.find? (fun s =>
    let search := t.data.take 500
    listContains (stripDiacritics search) (stripDiacritics s.data) ||
      listContains search s.data)

/-- The chunk loop of sample_pdf's `assign_sections_to_chunks`. -/
def assignGo (sections : List String) : String → List Chunk → List EnrichedChunk
  | _, [] => []
  | cur, c :: cs =>
    let found := (matchSec500 sections c.text).getD cur
    { text := c.text, page := c.page, sec := found } :: assignGo sections found cs

/-- `assign_sections_to_chunks` of sample_pdf.py.  With no sections every
chunk is labelled `f"Page {page}"`; otherwise first-match over the
500-character prefix with the sticky `current_section`. -/
def assign_sections_to_chunks (chunks : List Chunk) (sections : List String) :
    List EnrichedChunk :=
  match sections with
  | [] =>
    chunks.map (fun c => { text := c.text, page := c.page, sec := "Page " ++ toString c.page })
  | s0 :: _ => assignGo sections s0 chunks

end SamplePdf

namespace DoclingAr

/-- The Arabic keyword list of `is_section_heading` in main_docling_arabic.py. -/
def arabic_indicators : List String :=
  ["الوحدة", "وحدة", "الفصل", "فصل",
   "المقدمة", "مقدمة", "الخاتمة", "خاتمة",
   "الأهداف", "أهداف", "المنهجية", "منهجية",
   "التقويم", "تقويم", "الباب", "باب",
   "القسم", "قسم", "الجزء", "جزء",
   "الفرع", "فرع", "الملحق", "ملحق",
   "المراجع", "مراجع", "فترة المراجعة"]

/-- The English keyword list of `is_section_heading` in main_docling_arabic.py. -/
def english_indicators : List String :=
  ["chapter", "section", "unit", "introduction", "conclusion",
   "abstract", "summary", "appendix", "references", "bibliography",
   "part", "volume", "preface", "foreword", "acknowledgments",
   "table of contents", "index", "glossary"]

/-- The French keyword list of `is_section_heading` in main_docling_arabic.py. -/
def french_indicators : List String :=
  ["chapitre", "section", "unité", "introduction", "conclusion",
   "résumé", "annexe", "références", "bibliographie",
   "partie", "volume", "préface", "avant-propos", "remerciements",
   "table des matières", "index", "glossaire", "objectifs",
   "méthodologie", "évaluation"]

/-- `section_indicators = arabic + english + french` as in the source. -/
def section_indicators : List String :=
  arabic_indicators ++ english_indicators ++ french_indicators

/-- `is_section_heading` of main_docling_arabic.py: strips the text,
rejects empty, over-200-character and under-3-character lines, then
tests lowercased keywords, numbered headings, roman-numeral headings,
lines with a colon under 120 characters, and short all-caps lines of
fewer than 10 words. -/
def is_section_heading (text0 : String) : Bool :=
  let t := pyStrip text0.data
  if t.isEmpty || decide (200 < t.length) || decide (t.length < 3) then false
  else
    let tl := t.map pyLowerChar
    if section_indicators.any (fun k => listContains tl (k.data.map pyLowerChar)) then true
    else if numberedHeadingMatch t then true
    else if romanHeadingMatch t then true
    else if t.contains ':' && decide (t.length < 120) then true
    else if pyIsUpper t && decide (t.length < 80) && decide ((pySplitChars t).length < 10) then
      true
    else false

/-- The inner matching loop of `assign_sections_to_chunks` in
main_docling_arabic.py: identical to sample_pdf's (normalized-or-raw
match over the first 500 characters). -/
def matchSec500 (sections : List String) (t : String) : Option String :=
  sections.find? (fun s =>
    let search := t.data.take 500
    listContains (stripDiacritics search) (stripDiacritics s.data) ||
      listContains search s.data)

/-- The chunk loop of `assign_sections_to_chunks` in main_docling_arabic.py. -/
def assignGo (sections : List String) : String → List Chunk → List EnrichedChunk
  | _, [] => []
  | cur, c :: cs =>
    let found := (matchSec500 sections c.text).getD cur
    { text := c.text, page := c.page, sec := found } :: assignGo sections found cs

/-- `assign_sections_to_chunks` of main_docling_arabic.py.  With no
sections every chunk is labelled `f"صفحة {page}"`; otherwise first-match
over the 500-character prefix with the sticky `current_section`. -/
def assign_sections_to_chunks (chunks : List Chunk) (sections : List String) :
    List EnrichedChunk :=
  match sections with
  | [] =>
    chunks.map (fun c => { text := c.text, page := c.page, sec := "صفحة " ++ toString c.page })
  | s0 :: _ => assignGo sections s0 chunks

end DoclingAr

/-- Claim-side matcher, following the claim's words for C2: first section
whose text occurs in the first `k` characters of the chunk text, as a raw
substring or as a substring after stripping Arabic diacritics from both
sides. -/
def specMatchNorm (k : Nat) (sections : List String) (t : String) : Option String :=
  sections.find? (fun s =>
    listContains (t.data.take k) s.data ||
      listContains (stripDiacritics (t.data.take k)) (stripDiacritics s.data))

/-- Claim-side matcher for the raw-substring-only discipline actually
implemented by main.py (`section in chunk_text[:400]`). -/
def specMatchRaw (k : Nat) (sections : List String) (t : String) : Option String :=
  sections.find? (fun s => listContains (t.data.take k) s.data)

/-- Claim-side sticky assignment: each chunk text receives its first
match under `M`, or the carried-forward current value. -/
def specSticky (M : String → Option String) : String → List String → List String
  | _, [] => []
  | cur, t :: ts =>
    let r := (M t).getD cur
    r :: specSticky M r ts

/-! Helper lemmas about the Python-primitive embeddings. -/

theorem filterMap_eq_map_of {α β : Type} (l : List α) (F : α → Option β) (g : α → β)
    (h : ∀ a ∈ l, F a = some (g a)) : l.filterMap F = l.map g := by
  induction l with
  | nil => rfl
  | cons a l ih =>
    rw [List.filterMap_cons, h a (by simp), List.map_cons,
      ih (fun x hx => h x (by simp [hx]))]

theorem splitWordsAux_wf (cs : List Char) : ∀ (acc : List Char),
    (∀ c ∈ acc, isWS c = false) →
    ∀ w ∈ splitWordsAux cs acc, w ≠ [] ∧ ∀ c ∈ w, isWS c = false := by
  induction cs with
  | nil =>
    intro acc hacc w hw
    simp only [splitWordsAux] at hw
    split at hw
    · simp at hw
    · next hne =>
      simp only [List.mem_singleton] at hw
      subst hw
      refine ⟨?_, ?_⟩
      · intro hnil
        rw [List.isEmpty_eq_true] at hne
        exact hne (by simpa using congrArg List.reverse hnil)
      · intro c hc
        exact hacc c (List.mem_reverse.mp hc)
  | cons c cs ih =>
    intro acc hacc w hw
    simp only [splitWordsAux] at hw
    cases hws : isWS c with
    | true =>
      rw [hws] at hw
      simp only [if_true] at hw
      split at hw
      · exact ih [] (by simp) w hw
      · next hne =>
        rcases List.mem_cons.mp hw with hw | hw
        · subst hw
          refine ⟨?_, ?_⟩
          · intro hnil
            rw [List.isEmpty_eq_true] at hne
            exact hne (by simpa using congrArg List.reverse hnil)
          · intro x hx
            exact hacc x (List.mem_reverse.mp hx)
        · exact ih [] (by simp) w hw
    | false =>
      rw [hws] at hw
      simp only [Bool.false_eq_true, if_false] at hw
      refine ih (c :: acc) ?_ w hw
      intro x hx
      rcases List.mem_cons.mp hx with rfl | hx
      · exact hws
      · exact hacc x hx

theorem pySplitChars_wf (cs : List Char) :
    ∀ w ∈ pySplitChars cs, w ≠ [] ∧ ∀ c ∈ w, isWS c = false :=
  splitWordsAux_wf cs [] (by simp)

theorem pySplit_wf (s : String) :
    ∀ w ∈ pySplit s, w.data ≠ [] ∧ ∀ c ∈ w.data, isWS c = false := by
  intro w hw
  rcases List.mem_map.mp hw with ⟨u, hu, rfl⟩
  exact pySplitChars_wf s.data u hu

theorem splitWordsAux_word (w : List Char) : ∀ (rest acc : List Char),
    (∀ c ∈ w, isWS c = false) →
    splitWordsAux (w ++ rest) acc = splitWordsAux rest (w.reverse ++ acc) := by
  induction w with
  | nil => intro rest acc _; simp
  | cons c w ih =>
    intro rest acc hw
    have hc : isWS c = false := hw c (by simp)
    simp only [List.cons_append, splitWordsAux, hc, Bool.false_eq_true, if_false,
      List.append_eq]
    rw [ih rest (c :: acc) (fun x hx => hw x (by simp [hx]))]
    simp [List.append_assoc]

theorem pySplitChars_join (css : List (List Char)) :
    (∀ w ∈ css, w ≠ [] ∧ ∀ c ∈ w, isWS c = false) →
    pySplitChars (joinWithSpace css) = css := by
  induction css with
  | nil => intro _; rfl
  | cons w rest ih =>
    intro h
    have hw := h w (by simp)
    have hrev : w.reverse.isEmpty = false := by
      rw [List.isEmpty_eq_false]
      simpa using hw.1
    cases rest with
    | nil =>
      show pySplitChars (joinWithSpace [w]) = [w]
      have h1 : joinWithSpace [w] = w := rfl
      rw [h1]
      unfold pySplitChars
      have h2 := splitWordsAux_word w [] [] hw.2
      rw [List.append_nil] at h2
      rw [h2]
      simp only [splitWordsAux, List.append_nil, hrev, Bool.false_eq_true, if_false]
      simp
    | cons x ws =>
      have hrest : ∀ u ∈ x :: ws, u ≠ [] ∧ ∀ c ∈ u, isWS c = false :=
        fun u hu => h u (by simp [hu])
      show pySplitChars (joinWithSpace (w :: x :: ws)) = w :: x :: ws
      have h1 : joinWithSpace (w :: x :: ws) = w ++ ' ' :: joinWithSpace (x :: ws) := rfl
      rw [h1]
      unfold pySplitChars
      rw [splitWordsAux_word w _ [] hw.2, List.append_nil]
      have hsp : isWS ' ' = true := rfl
      simp only [splitWordsAux, hsp, if_true, hrev, Bool.false_eq_true, if_false,
        List.reverse_reverse]
      exact congrArg (w :: ·) (ih hrest)

theorem pySplit_joinWords (ws : List String)
    (h : ∀ w ∈ ws, w.data ≠ [] ∧ ∀ c ∈ w.data, isWS c = false) :
    pySplit (joinWords ws) = ws := by
  unfold pySplit joinWords
  have hd : (String.mk (joinWithSpace (ws.map String.data))).data
      = joinWithSpace (ws.map String.data) := rfl
  rw [hd, pySplitChars_join _ ?_]
  · rw [List.map_map]
    have hid : (String.mk ∘ String.data) = id := funext (fun s => by cases s; rfl)
    rw [hid, List.map_id]
  · intro w hw
    rcases List.mem_map.mp hw with ⟨u, hu, rfl⟩
    exact h u hu

theorem chunk_slice_spec {α : Type} (xs : List α) (i : Nat) (size : Int) (hsize : 0 < size) :
    pySlice xs i ((i : Int) + size)
      = (xs.take (min (i + size.toNat) xs.length)).drop i := by
  have hneg : ¬ ((i : Int) + size < 0) := by omega
  have htn : ((i : Int) + size).toNat = i + size.toNat := by omega
  unfold pySlice
  rw [if_neg hneg, htn]

theorem lt_of_lt_ceilDiv (k n s : Nat) (hs : 0 < s) (hk : k < (n + s - 1) / s) :
    k * s < n := by
  have h2 : (k + 1) * s ≤ n + s - 1 := (Nat.le_div_iff_mul_le hs).mp hk
  rw [Nat.succ_mul] at h2
  omega

theorem chunkPage_eq_of_range (size overlap : Int) (p : PageText) (idxs : List Nat)
    (hr : pyRangeIdx (pySplit p.text).length (size - overlap) = Except.ok idxs) :
    chunkPage size overlap p = Except.ok (idxs.filterMap (fun i =>
      if (pySlice (pySplit p.text) i ((i : Int) + size)).isEmpty then none
      else some (Chunk.mk (joinWords (pySlice (pySplit p.text) i ((i : Int) + size))) p.page))) := by
  show (match pyRangeIdx (pySplit p.text).length (size - overlap) with
      | Except.error e => Except.error e
      | Except.ok idxs' => Except.ok (idxs'.filterMap (fun i =>
          if (pySlice (pySplit p.text) i ((i : Int) + size)).isEmpty then none
          else some (Chunk.mk (joinWords (pySlice (pySplit p.text) i ((i : Int) + size))) p.page))))
    = _
  rw [hr]

theorem chunkPage_ok (p : PageText) (size overlap : Int)
    (h1 : 0 < overlap) (h2 : overlap < size) :
    ∃ cs : List Chunk,
      chunkPage size overlap p = Except.ok cs ∧
      cs.length = (if (pySplit p.text).length = 0 then 0
        else ((pySplit p.text).length + (size - overlap).toNat - 1) / (size - overlap).toNat) ∧
      ∀ c ∈ cs, ((pySplit c.text).length : Int) ≤ size := by
  have hsize : (0 : Int) < size := lt_trans h1 h2
  have hs1 : 0 < (size - overlap).toNat := by omega
  have hr : pyRangeIdx (pySplit p.text).length (size - overlap)
      = Except.ok ((List.range (((pySplit p.text).length + (size - overlap).toNat - 1)
          / (size - overlap).toNat)).map (fun k => k * (size - overlap).toNat)) := by
    unfold pyRangeIdx
    rw [if_neg (by omega), if_neg (by omega)]
  have hmem_lt : ∀ i ∈ (List.range (((pySplit p.text).length + (size - overlap).toNat - 1)
          / (size - overlap).toNat)).map (fun k => k * (size - overlap).toNat),
      i < (pySplit p.text).length := by
    intro i hi
    rcases List.mem_map.mp hi with ⟨k, hk, rfl⟩
    exact lt_of_lt_ceilDiv k _ _ hs1 (List.mem_range.mp hk)
  have hlen : ∀ i : Nat, (pySlice (pySplit p.text) i ((i : Int) + size)).length
      = min (i + size.toNat) (pySplit p.text).length - i := by
    intro i
    rw [chunk_slice_spec _ i size hsize, List.length_drop, List.length_take]
    omega
  have hnonempty : ∀ i : Nat, i < (pySplit p.text).length →
      (pySlice (pySplit p.text) i ((i : Int) + size)).isEmpty = false := by
    intro i hi
    rw [List.isEmpty_eq_false, ← List.length_pos, hlen i]
    omega
  have hfm : ((List.range (((pySplit p.text).length + (size - overlap).toNat - 1)
          / (size - overlap).toNat)).map (fun k => k * (size - overlap).toNat)).filterMap
        (fun i =>
          if (pySlice (pySplit p.text) i ((i : Int) + size)).isEmpty then none
          else some (Chunk.mk (joinWords (pySlice (pySplit p.text) i ((i : Int) + size))) p.page))
      = ((List.range (((pySplit p.text).length + (size - overlap).toNat - 1)
          / (size - overlap).toNat)).map (fun k => k * (size - overlap).toNat)).map
        (fun i => Chunk.mk (joinWords (pySlice (pySplit p.text) i ((i : Int) + size))) p.page) := by
    refine filterMap_eq_map_of _ _ _ ?_
    intro i hi
    rw [hnonempty i (hmem_lt i hi)]
    simp
  refine ⟨((List.range (((pySplit p.text).length + (size - overlap).toNat - 1)
      / (size - overlap).toNat)).map (fun k => k * (size - overlap).toNat)).map
      (fun i => Chunk.mk (joinWords (pySlice (pySplit p.text) i ((i : Int) + size))) p.page),
    ?_, ?_, ?_⟩
  · rw [chunkPage_eq_of_range size overlap p _ hr]
    exact congrArg Except.ok hfm
  · simp only [List.length_map, List.length_range]
    by_cases hn0 : (pySplit p.text).length = 0
    · rw [if_pos hn0, hn0]
      have he : 0 + (size - overlap).toNat - 1 = (size - overlap).toNat - 1 := by omega
      rw [he]
      exact Nat.div_eq_of_lt (by omega)
    · rw [if_neg hn0]
  · intro c hc
    rcases List.mem_map.mp hc with ⟨i, hi, rfl⟩
    have hwf : ∀ w ∈ pySlice (pySplit p.text) i ((i : Int) + size),
        w.data ≠ [] ∧ ∀ ch ∈ w.data, isWS ch = false := by
      intro w hw
      rw [chunk_slice_spec _ i size hsize] at hw
      exact pySplit_wf p.text w (List.mem_of_mem_take (List.mem_of_mem_drop hw))
    show ((pySplit (joinWords (pySlice (pySplit p.text) i ((i : Int) + size)))).length : Int)
        ≤ size
    rw [pySplit_joinWords _ hwf, hlen i]
    omega

theorem mainpy_chunk_cons (p : PageText) (ps : List PageText) (size overlap : Int)
    (cs rest : List Chunk) (hp : chunkPage size overlap p = Except.ok cs)
    (hps : MainPy.chunk_text_pages ps size overlap = Except.ok rest) :
    MainPy.chunk_text_pages (p :: ps) size overlap = Except.ok (cs ++ rest) := by
  unfold MainPy.chunk_text_pages
  rw [hp]
  simp only [hps]

theorem samplepdf_chunk_cons (p : PageText) (ps : List PageText) (size overlap : Int)
    (cs rest : List Chunk) (hp : chunkPage size overlap p = Except.ok cs)
    (hps : SamplePdf.chunk_plain_text ps size overlap = Except.ok rest) :
    SamplePdf.chunk_plain_text (p :: ps) size overlap = Except.ok (cs ++ rest) := by
  unfold SamplePdf.chunk_plain_text
  rw [hp]
  simp only [hps]

theorem mainpy_chunk_neg (pages : List PageText) (size overlap : Int)
    (h : size < overlap) :
    MainPy.chunk_text_pages pages size overlap = Except.ok [] := by
  induction pages with
  | nil => rfl
  | cons p ps ih =>
    have hp : chunkPage size overlap p = Except.ok [] := by
      have hr : pyRangeIdx (pySplit p.text).length (size - overlap) = Except.ok [] := by
        unfold pyRangeIdx
        rw [if_neg (by omega), if_pos (by omega)]
      rw [chunkPage_eq_of_range size overlap p [] hr]
      rfl
    rw [mainpy_chunk_cons p ps size overlap [] [] hp ih]
    rfl

theorem samplepdf_chunk_neg (pages : List PageText) (size overlap : Int)
    (h : size < overlap) :
    SamplePdf.chunk_plain_text pages size overlap = Except.ok [] := by
  induction pages with
  | nil => rfl
  | cons p ps ih =>
    have hp : chunkPage size overlap p = Except.ok [] := by
      have hr : pyRangeIdx (pySplit p.text).length (size - overlap) = Except.ok [] := by
        unfold pyRangeIdx
        rw [if_neg (by omega), if_pos (by omega)]
      rw [chunkPage_eq_of_range size overlap p [] hr]
      rfl
    rw [samplepdf_chunk_cons p ps size overlap [] [] hp ih]
    rfl

theorem mainpy_chunk_zero_step (p : PageText) (ps : List PageText) (size overlap : Int)
    (h : overlap = size) :
    MainPy.chunk_text_pages (p :: ps) size overlap
      = Except.error "range() arg 3 must not be zero" := by
  have hp : chunkPage size overlap p = Except.error "range() arg 3 must not be zero" := by
    show (match pyRangeIdx (pySplit p.text).length (size - overlap) with
        | Except.error e => Except.error e
        | Except.ok idxs' => Except.ok (idxs'.filterMap (fun i =>
            if (pySlice (pySplit p.text) i ((i : Int) + size)).isEmpty then none
            else some (Chunk.mk (joinWords (pySlice (pySplit p.text) i ((i : Int) + size)))
              p.page))))
      = _
    have hr : pyRangeIdx (pySplit p.text).length (size - overlap)
        = Except.error "range() arg 3 must not be zero" := by
      unfold pyRangeIdx
      rw [if_pos (by omega)]
    rw [hr]
  unfold MainPy.chunk_text_pages
  rw [hp]

theorem findCongr {α : Type} (l : List α) (p q : α → Bool) (h : ∀ a ∈ l, p a = q a) :
    l.find? p = l.find? q := by
  induction l with
  | nil => rfl
  | cons a l ih =>
    have ha := h a (by simp)
    cases hq : q a with
    | true => simp [List.find?_cons, ha, hq]
    | false =>
      simp only [List.find?_cons, ha, hq]
      exact ih (fun x hx => h x (by simp [hx]))

theorem matchSec500_eq_norm (sections : List String) (t : String) :
    SamplePdf.matchSec500 sections t = specMatchNorm 500 sections t := by
  unfold SamplePdf.matchSec500 specMatchNorm
  exact findCongr _ _ _ (fun s _ => Bool.or_comm _ _)

theorem docling_matchSec500_eq_norm (sections : List String) (t : String) :
    DoclingAr.matchSec500 sections t = specMatchNorm 500 sections t := by
  unfold DoclingAr.matchSec500 specMatchNorm
  exact findCongr _ _ _ (fun s _ => Bool.or_comm _ _)

theorem mainpy_assignGo_sec (sections : List String) (chunks : List Chunk) :
    ∀ cur : String,
      (MainPy.assignGo sections cur chunks).map EnrichedChunk.sec
        = specSticky (specMatchRaw 400 sections) cur (chunks.map Chunk.text) := by
  induction chunks with
  | nil => intro cur; rfl
  | cons c cs ih =>
    intro cur
    simp only [MainPy.assignGo, specSticky, List.map_cons]
    rw [ih]
    rfl

theorem samplepdf_assignGo_sec (sections : List String) (chunks : List Chunk) :
    ∀ cur : String,
      (SamplePdf.assignGo sections cur chunks).map EnrichedChunk.sec
        = specSticky (specMatchNorm 500 sections) cur (chunks.map Chunk.text) := by
  induction chunks with
  | nil => intro cur; rfl
  | cons c cs ih =>
    intro cur
    simp only [SamplePdf.assignGo, specSticky, List.map_cons, matchSec500_eq_norm]
    rw [ih]

theorem docling_assignGo_sec (sections : List String) (chunks : List Chunk) :
    ∀ cur : String,
      (DoclingAr.assignGo sections cur chunks).map EnrichedChunk.sec
        = specSticky (specMatchNorm 500 sections) cur (chunks.map Chunk.text) := by
  induction chunks with
  | nil => intro cur; rfl
  | cons c cs ih =>
    intro cur
    simp only [DoclingAr.assignGo, specSticky, List.map_cons, docling_matchSec500_eq_norm]
    rw [ih]

theorem mainpy_assignGo_mem (sections : List String) (chunks : List Chunk) :
    ∀ cur : String, cur ∈ sections →
      ∀ e ∈ MainPy.assignGo sections cur chunks, e.sec ∈ sections := by
  induction chunks with
  | nil =>
    intro cur _ e he
    simp [MainPy.assignGo] at he
  | cons c cs ih =>
    intro cur hcur e he
    have hfound : (MainPy.matchSec400 sections c.text).getD cur ∈ sections := by
      cases hm : MainPy.matchSec400 sections c.text with
      | none => simpa using hcur
      | some s =>
        have hs : s ∈ sections := List.mem_of_find?_eq_some hm
        simpa using hs
    simp only [MainPy.assignGo, List.mem_cons] at he
    rcases he with rfl | he
    · exact hfound
    · exact ih _ hfound e he

theorem samplepdf_assignGo_mem (sections : List String) (chunks : List Chunk) :
    ∀ cur : String, cur ∈ sections →
      ∀ e ∈ SamplePdf.assignGo sections cur chunks, e.sec ∈ sections := by
  induction chunks with
  | nil =>
    intro cur _ e he
    simp [SamplePdf.assignGo] at he
  | cons c cs ih =>
    intro cur hcur e he
    have hfound : (SamplePdf.matchSec500 sections c.text).getD cur ∈ sections := by
      cases hm : SamplePdf.matchSec500 sections c.text with
      | none => simpa using hcur
      | some s =>
        have hs : s ∈ sections := List.mem_of_find?_eq_some hm
        simpa using hs
    simp only [SamplePdf.assignGo, List.mem_cons] at he
    rcases he with rfl | he
    · exact hfound
    · exact ih _ hfound e he

theorem docling_assignGo_mem (sections : List String) (chunks : List Chunk) :
    ∀ cur : String, cur ∈ sections →
      ∀ e ∈ DoclingAr.assignGo sections cur chunks, e.sec ∈ sections := by
  induction chunks with
  | nil =>
    intro cur _ e he
    simp [DoclingAr.assignGo] at he
  | cons c cs ih =>
    intro cur hcur e he
    have hfound : (DoclingAr.matchSec500 sections c.text).getD cur ∈ sections := by
      cases hm : DoclingAr.matchSec500 sections c.text with
      | none => simpa using hcur
      | some s =>
        have hs : s ∈ sections := List.mem_of_find?_eq_some hm
        simpa using hs
    simp only [DoclingAr.assignGo, List.mem_cons] at he
    rcases he with rfl | he
    · exact hfound
    · exact ih _ hfound e he

theorem mainpy_assignGo_frame (sections : List String) (chunks : List Chunk) :
    ∀ cur : String,
      (MainPy.assignGo sections cur chunks).map (fun e => (e.text, e.page))
        = chunks.map (fun c => (c.text, c.page)) := by
  induction chunks with
  | nil => intro _; rfl
  | cons c cs ih =>
    intro cur
    simp only [MainPy.assignGo, List.map_cons]
    rw [ih]

theorem samplepdf_assignGo_frame (sections : List String) (chunks : List Chunk) :
    ∀ cur : String,
      (SamplePdf.assignGo sections cur chunks).map (fun e => (e.text, e.page))
        = chunks.map (fun c => (c.text, c.page)) := by
  induction chunks with
  | nil => intro _; rfl
  | cons c cs ih =>
    intro cur
    simp only [SamplePdf.assignGo, List.map_cons]
    rw [ih]

theorem docling_assignGo_frame (sections : List String) (chunks : List Chunk) :
    ∀ cur : String,
      (DoclingAr.assignGo sections cur chunks).map (fun e => (e.text, e.page))
        = chunks.map (fun c => (c.text, c.page)) := by
  induction chunks with
  | nil => intro _; rfl
  | cons c cs ih =>
    intro cur
    simp only [DoclingAr.assignGo, List.map_cons]
    rw [ih]

theorem dropWhile_head_false {α : Type} (p : α → Bool) (l : List α) (c : α) (rest : List α)
    (h : l.dropWhile p = c :: rest) : p c = false := by
  induction l with
  | nil => simp [List.dropWhile] at h
  | cons a as ih =>
    rw [List.dropWhile_cons] at h
    split at h
    · exact ih h
    · next hpa =>
      cases h
      exact Bool.not_eq_true _ ▸ Bool.of_not_eq_true hpa

theorem pyStrip_not_all_ws (cs : List Char) (h : pyStrip cs ≠ []) :
    (pyStrip cs).all isWS = false := by
  unfold pyStrip at h ⊢
  cases he : (cs.dropWhile isWS).reverse.dropWhile isWS with
  | nil => rw [he] at h; simp at h
  | cons c rest =>
    have hc : isWS c = false := dropWhile_head_false isWS _ c rest he
    cases hall : (c :: rest).reverse.all isWS with
    | false => rfl
    | true =>
      have := List.all_eq_true.mp hall c (by simp)
      rw [hc] at this
      cases this

theorem mainpy_heading_guard (line : String)
    (h : pyStrip line.data = [] ∨ 200 < (pyStrip line.data).length) :
    MainPy.is_section_heading line = false := by
  have hcond : ((pyStrip line.data).isEmpty
      || decide (200 < (pyStrip line.data).length)) = true := by
    rcases h with h | h
    · simp [h]
    · simp [h]
  simp only [MainPy.is_section_heading, hcond, if_true]

theorem samplepdf_heading_guard (line : String)
    (h : pyStrip line.data = [] ∨ 200 < (pyStrip line.data).length) :
    SamplePdf.is_likely_heading line = false := by
  have hcond : ((pyStrip line.data).isEmpty
      || decide (200 < (pyStrip line.data).length)) = true := by
    rcases h with h | h
    · simp [h]
    · simp [h]
  simp only [SamplePdf.is_likely_heading, hcond, if_true]

theorem docling_heading_guard (line : String)
    (h : pyStrip line.data = [] ∨ 200 < (pyStrip line.data).length ∨
      (pyStrip line.data).length < 3) :
    DoclingAr.is_section_heading line = false := by
  have hcond : ((pyStrip line.data).isEmpty
      || decide (200 < (pyStrip line.data).length)
      || decide ((pyStrip line.data).length < 3)) = true := by
    rcases h with h | h | h
    · simp [h]
    · simp [h]
    · simp [h]
  simp only [DoclingAr.is_section_heading, hcond, if_true]

theorem mainpy_assign_frame (chunks : List Chunk) (sections : List String) :
    (MainPy.assign_sections_smart chunks sections).map (fun e => (e.text, e.page))
      = chunks.map (fun c => (c.text, c.page)) := by
  cases sections with
  | nil =>
    simp only [MainPy.assign_sections_smart]
    rw [List.map_map]
    rfl
  | cons s0 rest =>
    exact mainpy_assignGo_frame (s0 :: rest) chunks s0

theorem samplepdf_assign_frame (chunks : List Chunk) (sections : List String) :
    (SamplePdf.assign_sections_to_chunks chunks sections).map (fun e => (e.text, e.page))
      = chunks.map (fun c => (c.text, c.page)) := by
  cases sections with
  | nil =>
    simp only [SamplePdf.assign_sections_to_chunks]
    rw [List.map_map]
    rfl
  | cons s0 rest =>
    exact samplepdf_assignGo_frame (s0 :: rest) chunks s0

theorem docling_assign_frame (chunks : List Chunk) (sections : List String) :
    (DoclingAr.assign_sections_to_chunks chunks sections).map (fun e => (e.text, e.page))
      = chunks.map (fun c => (c.text, c.page)) := by
  cases sections with
  | nil =>
    simp only [DoclingAr.assign_sections_to_chunks]
    rw [List.map_map]
    rfl
  | cons s0 rest =>
    exact docling_assignGo_frame (s0 :: rest) chunks s0

/-! Claim theorems. -/

/-- C1: For every page and every chunk configuration with
`0 < overlap < size`, the Chunker applied to that page produces exactly
`⌈wordcount / (size - overlap)⌉` chunks when the page's whitespace-split
word count is positive (in Nat form, `(wordcount + step - 1) / step`) and
0 chunks when it is 0, and every produced chunk's word count is at most
`size`.  Both `chunk_text_pages` (main.py) and `chunk_plain_text`
(sample_pdf.py) produce this same output. -/
theorem chunker_window_count (p : PageText) (size overlap : Int)
    (h1 : 0 < overlap) (h2 : overlap < size) :
    ∃ cs : List Chunk,
      MainPy.chunk_text_pages [p] size overlap = Except.ok cs ∧
      SamplePdf.chunk_plain_text [p] size overlap = Except.ok cs ∧
      cs.length = (if (pySplit p.text).length = 0 then 0
        else ((pySplit p.text).length + (size - overlap).toNat - 1) / (size - overlap).toNat) ∧
      ∀ c ∈ cs, ((pySplit c.text).length : Int) ≤ size := by
  obtain ⟨cs, hok, hlen, hwc⟩ := chunkPage_ok p size overlap h1 h2
  refine ⟨cs, ?_, ?_, hlen, hwc⟩
  · rw [mainpy_chunk_cons p [] size overlap cs [] hok rfl, List.append_nil]
  · rw [samplepdf_chunk_cons p [] size overlap cs [] hok rfl, List.append_nil]

/-- Witness for C1: the page "a b c" with size 2 and overlap 1 yields
⌈3/1⌉ = 3 chunks of at most 2 words each. -/
theorem chunker_window_count_witness :
    ∃ cs : List Chunk,
      MainPy.chunk_text_pages [⟨1, "a b c"⟩] 2 1 = Except.ok cs ∧
      SamplePdf.chunk_plain_text [⟨1, "a b c"⟩] 2 1 = Except.ok cs ∧
      cs.length = (if (pySplit (PageText.mk 1 "a b c").text).length = 0 then 0
        else ((pySplit (PageText.mk 1 "a b c").text).length + ((2 : Int) - 1).toNat - 1)
          / ((2 : Int) - 1).toNat) ∧
      ∀ c ∈ cs, ((pySplit c.text).length : Int) ≤ 2 :=
  chunker_window_count ⟨1, "a b c"⟩ 2 1 (by decide) (by decide)

/-- C3 counterexample: the Chunker does not reject `overlap > size` (the
call returns normally with no chunks), and it does not reject
`size ≤ 0` either — with `size = -1`, `overlap = -3` it even produces a
chunk, because the negative size indexes the word list from the end. -/
theorem chunker_validation_cex :
    MainPy.chunk_text_pages [⟨1, "a b"⟩] 5 7 = Except.ok [] ∧
    MainPy.chunk_text_pages [⟨1, "a b"⟩] (-1) (-3) = Except.ok [⟨"a", 1⟩] ∧
    SamplePdf.chunk_plain_text [⟨1, "a b"⟩] 5 7 = Except.ok [] :=
  ⟨rfl, rfl, rfl⟩

/-- C3 (amended): the Chunker performs no explicit configuration
validation.  The only failing case is `overlap = size` on a non-empty
pages list, which fails with the underlying `range` zero-step error;
`overlap > size` is not an error and silently yields no chunks (and
`size ≤ 0` is likewise not rejected, as the counterexample shows). -/
theorem chunker_degenerate_config (pages : List PageText) (size overlap : Int) :
    (overlap = size → ∀ p ps, pages = p :: ps →
      MainPy.chunk_text_pages pages size overlap
        = Except.error "range() arg 3 must not be zero") ∧
    (size < overlap →
      MainPy.chunk_text_pages pages size overlap = Except.ok [] ∧
      SamplePdf.chunk_plain_text pages size overlap = Except.ok []) := by
  constructor
  · intro h p ps hp
    subst hp
    exact mainpy_chunk_zero_step p ps size overlap h
  · intro h
    exact ⟨mainpy_chunk_neg pages size overlap h, samplepdf_chunk_neg pages size overlap h⟩

/-- Witness for C3 (amended) at concrete configurations. -/
theorem chunker_degenerate_config_witness :
    MainPy.chunk_text_pages [⟨1, "a"⟩] 3 3 = Except.error "range() arg 3 must not be zero" ∧
    MainPy.chunk_text_pages [⟨1, "a"⟩] 5 7 = Except.ok [] :=
  ⟨(chunker_degenerate_config [⟨1, "a"⟩] 3 3).1 rfl ⟨1, "a"⟩ [] rfl,
   ((chunker_degenerate_config [⟨1, "a"⟩] 5 7).2 (by decide)).1⟩

/-- C9: the Chunker, the Heading Classifier, section extraction and
assignment are deterministic: two runs on equal inputs with equal
configurations produce identical outputs.  (The embedded functions are
pure; the Python sources read no state besides their arguments and their
only side effect is diagnostic printing.) -/
theorem pipeline_deterministic (pages1 pages2 : List PageText)
    (size1 size2 overlap1 overlap2 : Int) (chunks1 chunks2 : List Chunk)
    (sections1 sections2 : List String) (line1 line2 : String)
    (hp : pages1 = pages2) (hs : size1 = size2) (ho : overlap1 = overlap2)
    (hc : chunks1 = chunks2) (hsec : sections1 = sections2) (hl : line1 = line2) :
    MainPy.chunk_text_pages pages1 size1 overlap1
        = MainPy.chunk_text_pages pages2 size2 overlap2 ∧
    MainPy.is_section_heading line1 = MainPy.is_section_heading line2 ∧
    MainPy.extract_sections_from_pages pages1 = MainPy.extract_sections_from_pages pages2 ∧
    MainPy.assign_sections_smart chunks1 sections1
        = MainPy.assign_sections_smart chunks2 sections2 := by
  subst hp; subst hs; subst ho; subst hc; subst hsec; subst hl
  exact ⟨rfl, rfl, rfl, rfl⟩

/-- Witness for C9 at a concrete input. -/
theorem pipeline_deterministic_witness :
    MainPy.chunk_text_pages [⟨1, "a"⟩] 2 1 = MainPy.chunk_text_pages [⟨1, "a"⟩] 2 1 ∧
    MainPy.is_section_heading "a" = MainPy.is_section_heading "a" ∧
    MainPy.extract_sections_from_pages [⟨1, "a"⟩]
        = MainPy.extract_sections_from_pages [⟨1, "a"⟩] ∧
    MainPy.assign_sections_smart [] [] = MainPy.assign_sections_smart [] [] :=
  pipeline_deterministic [⟨1, "a"⟩] [⟨1, "a"⟩] 2 2 1 1 [] [] [] [] "a" "a"
    rfl rfl rfl rfl rfl rfl

/-- C2 counterexample: main.py's `assign_sections_smart` — one of the two
cited assignment implementations — matches raw substrings only, so a
section that matches only after stripping Arabic diacritics is not
assigned, contradicting the claim's raw-or-normalized rule.  Here the
claim-side matcher picks the diacritic-bearing section at both prefix
bounds (400 and 500), while the code carries forward the default first
section instead. -/
theorem assign_first_match_cex :
    (MainPy.assign_sections_smart [⟨"x:", 1⟩] ["A", "xَ:"]).map EnrichedChunk.sec
        = ["A"] ∧
    specMatchNorm 400 ["A", "xَ:"] "x:" = some "xَ:" ∧
    specMatchNorm 500 ["A", "xَ:"] "x:" = some "xَ:" ∧
    ("A" : String) ≠ "xَ:" :=
  ⟨rfl, rfl, rfl, by decide⟩

/-- C2 (amended): with non-empty sections, each chunk receives, in order,
the first section (detection order, first match wins) matching the
bounded prefix of its text, and otherwise the carried-forward
`current_section` initialized to the first section — where the match
discipline is raw-or-diacritic-stripped over the first 500 characters
for `assign_sections_to_chunks` (sample_pdf.py and
main_docling_arabic.py), but raw-substring-only over the first 400
characters for main.py's `assign_sections_smart`; in all three, every
emitted section is an element of the sections list. -/
theorem assign_sticky_characterization (chunks : List Chunk) (s0 : String)
    (rest : List String) :
    ((MainPy.assign_sections_smart chunks (s0 :: rest)).map EnrichedChunk.sec
      = specSticky (specMatchRaw 400 (s0 :: rest)) s0 (chunks.map Chunk.text)) ∧
    ((SamplePdf.assign_sections_to_chunks chunks (s0 :: rest)).map EnrichedChunk.sec
      = specSticky (specMatchNorm 500 (s0 :: rest)) s0 (chunks.map Chunk.text)) ∧
    ((DoclingAr.assign_sections_to_chunks chunks (s0 :: rest)).map EnrichedChunk.sec
      = specSticky (specMatchNorm 500 (s0 :: rest)) s0 (chunks.map Chunk.text)) ∧
    (∀ e ∈ MainPy.assign_sections_smart chunks (s0 :: rest), e.sec ∈ s0 :: rest) ∧
    (∀ e ∈ SamplePdf.assign_sections_to_chunks chunks (s0 :: rest), e.sec ∈ s0 :: rest) ∧
    (∀ e ∈ DoclingAr.assign_sections_to_chunks chunks (s0 :: rest), e.sec ∈ s0 :: rest) := by
  refine ⟨?_, ?_, ?_, ?_, ?_, ?_⟩
  · exact mainpy_assignGo_sec (s0 :: rest) chunks s0
  · exact samplepdf_assignGo_sec (s0 :: rest) chunks s0
  · exact docling_assignGo_sec (s0 :: rest) chunks s0
  · exact mainpy_assignGo_mem (s0 :: rest) chunks s0 (by simp)
  · exact samplepdf_assignGo_mem (s0 :: rest) chunks s0 (by simp)
  · exact docling_assignGo_mem (s0 :: rest) chunks s0 (by simp)

/-- Witness for C2 (amended) at a concrete chunk list and sections list. -/
theorem assign_sticky_characterization_witness :
    ((MainPy.assign_sections_smart [⟨"abc", 1⟩] ["zz"]).map EnrichedChunk.sec
      = specSticky (specMatchRaw 400 ["zz"]) "zz" ([⟨"abc", 1⟩].map Chunk.text)) ∧
    (⟨"abc", 1, "zz"⟩ : EnrichedChunk).sec ∈ ["zz"] :=
  ⟨(assign_sticky_characterization [⟨"abc", 1⟩] "zz" []).1,
   (assign_sticky_characterization [⟨"abc", 1⟩] "zz" []).2.2.2.1 ⟨"abc", 1, "zz"⟩ (by decide)⟩

/-- C4 counterexample: with empty sections, main.py's
`assign_sections_smart` — one of the two cited assignment
implementations — labels chunks `"صفحة {page}"`, not `"Page {page}"`. -/
theorem empty_sections_label_cex :
    MainPy.assign_sections_smart [⟨"t", 1⟩] [] = [⟨"t", 1, "صفحة 1"⟩] ∧
    ("صفحة 1" : String) ≠ "Page 1" :=
  ⟨rfl, by decide⟩

/-- C4 (amended): with empty sections the assignment step returns one
EnrichedChunk per chunk whose section is the synthetic page label — the
string `"Page {page}"` in sample_pdf.py's `assign_sections_to_chunks`,
and the string `"صفحة {page}"` in main.py's `assign_sections_smart` —
with no matching performed. -/
theorem empty_sections_page_label (chunks : List Chunk) (i : Nat) :
    ((SamplePdf.assign_sections_to_chunks chunks [])[i]?).map EnrichedChunk.sec
      = (chunks[i]?).map (fun c => "Page " ++ toString c.page) ∧
    ((MainPy.assign_sections_smart chunks [])[i]?).map EnrichedChunk.sec
      = (chunks[i]?).map (fun c => "صفحة " ++ toString c.page) ∧
    (SamplePdf.assign_sections_to_chunks chunks []).length = chunks.length ∧
    (MainPy.assign_sections_smart chunks []).length = chunks.length := by
  refine ⟨?_, ?_, ?_, ?_⟩
  · simp only [SamplePdf.assign_sections_to_chunks]
    rw [List.getElem?_map]
    cases chunks[i]? <;> rfl
  · simp only [MainPy.assign_sections_smart]
    rw [List.getElem?_map]
    cases chunks[i]? <;> rfl
  · simp only [SamplePdf.assign_sections_to_chunks]
    rw [List.length_map]
  · simp only [MainPy.assign_sections_smart]
    rw [List.length_map]

/-- C5: the assignment step is a 1:1 decoration for all three
implementations: output length equals input length, order is preserved,
and each output's text and page equal the corresponding input chunk's
(stated as equality of the text/page projections, which forces both the
count and the per-position fields). -/
theorem assign_frame_preservation (chunks : List Chunk) (sections : List String) :
    ((MainPy.assign_sections_smart chunks sections).map (fun e => (e.text, e.page))
      = chunks.map (fun c => (c.text, c.page))) ∧
    ((SamplePdf.assign_sections_to_chunks chunks sections).map (fun e => (e.text, e.page))
      = chunks.map (fun c => (c.text, c.page))) ∧
    ((DoclingAr.assign_sections_to_chunks chunks sections).map (fun e => (e.text, e.page))
      = chunks.map (fun c => (c.text, c.page))) :=
  ⟨mainpy_assign_frame chunks sections, samplepdf_assign_frame chunks sections,
   docling_assign_frame chunks sections⟩

/-- C6 counterexample: main.py's Heading Classifier — one of the two
cited implementations — has no minimum-length floor: the one-character
line ":" is accepted (via the short-line-with-colon rule), contradicting
"every line of fewer than 3 characters is rejected". -/
theorem heading_floor_cex :
    MainPy.is_section_heading ":" = true ∧ (pyStrip (":" : String).data).length = 1 :=
  ⟨rfl, rfl⟩

/-- C6 (amended): main_docling_arabic.py's classifier rejects trimmed
lines that are empty, longer than 200 characters, or shorter than 3
characters; main.py's `is_section_heading` and sample_pdf.py's
`is_likely_heading` reject only empty and over-200-character lines, with
no length floor. -/
theorem heading_length_bounds (line : String) :
    ((pyStrip line.data = [] ∨ 200 < (pyStrip line.data).length ∨
        (pyStrip line.data).length < 3) →
      DoclingAr.is_section_heading line = false) ∧
    ((pyStrip line.data = [] ∨ 200 < (pyStrip line.data).length) →
      MainPy.is_section_heading line = false) ∧
    ((pyStrip line.data = [] ∨ 200 < (pyStrip line.data).length) →
      SamplePdf.is_likely_heading line = false) :=
  ⟨docling_heading_guard line, mainpy_heading_guard line, samplepdf_heading_guard line⟩

/-- Witness for C6 (amended): "ab" has trimmed length 2 < 3 and is
rejected by the docling classifier; the empty line is rejected by all. -/
theorem heading_length_bounds_witness :
    DoclingAr.is_section_heading "ab" = false ∧
    MainPy.is_section_heading "" = false ∧
    SamplePdf.is_likely_heading "" = false :=
  ⟨(heading_length_bounds "ab").1 (Or.inr (Or.inr (by decide))),
   (heading_length_bounds "").2.1 (Or.inl (by decide)),
   (heading_length_bounds "").2.2 (Or.inl (by decide))⟩

set_option maxRecDepth 16384 in
/-- C7 counterexample: main.py's classifier returns `false` on
"CONCLUSION" (its keyword list is Arabic-only and no other rule fires),
and a 250-character line is not always rejected: when trailing
whitespace trims the line under the ceiling, both main.py's and
main_docling_arabic.py's classifiers can accept a 250-character line. -/
theorem classifier_examples_cex :
    MainPy.is_section_heading "CONCLUSION" = false ∧
    MainPy.is_section_heading (String.mk (':' :: List.replicate 249 ' ')) = true ∧
    (String.mk (':' :: List.replicate 249 ' ')).data.length = 250 ∧
    DoclingAr.is_section_heading (String.mk ('a' :: 'b' :: ':' :: List.replicate 247 ' '))
        = true ∧
    (String.mk ('a' :: 'b' :: ':' :: List.replicate 247 ' ')).data.length = 250 := by
  refine ⟨rfl, ?_, ?_, ?_, ?_⟩ <;> decide

/-- C7 (amended): the classifier returns `true` on
"الوحدة الأولى: الدوال" (keyword match) and `false` on the empty string
in both main.py and main_docling_arabic.py; every line whose trimmed
length still exceeds 200 characters is rejected by both; "CONCLUSION" is
accepted by main_docling_arabic.py's classifier (whose keyword list has
English entries) but rejected by main.py's Arabic-only classifier. -/
theorem classifier_examples :
    MainPy.is_section_heading "الوحدة الأولى: الدوال" = true ∧
    DoclingAr.is_section_heading "الوحدة الأولى: الدوال" = true ∧
    MainPy.is_section_heading "" = false ∧
    DoclingAr.is_section_heading "" = false ∧
    (∀ line : String, 200 < (pyStrip line.data).length →
      MainPy.is_section_heading line = false ∧
        DoclingAr.is_section_heading line = false) ∧
    DoclingAr.is_section_heading "CONCLUSION" = true ∧
    MainPy.is_section_heading "CONCLUSION" = false := by
  refine ⟨rfl, rfl, rfl, rfl, ?_, rfl, rfl⟩
  intro line h
  exact ⟨mainpy_heading_guard line (Or.inr h),
    docling_heading_guard line (Or.inr (Or.inl h))⟩

set_option maxRecDepth 16384 in
/-- Witness for C7 (amended): a 250-character all-letter line is
rejected by both classifiers. -/
theorem classifier_examples_witness :
    MainPy.is_section_heading (String.mk (List.replicate 250 'a')) = false ∧
    DoclingAr.is_section_heading (String.mk (List.replicate 250 'a')) = false :=
  classifier_examples.2.2.2.2.1 (String.mk (List.replicate 250 'a')) (by decide)

/-- C8: on the single page
`{page: 1, text: "المقدمة\nنص عادي هنا.\n\nالفصل الأول: الدوال\nنص آخر."}`
with size 600 and overlap 100, `extract_sections_from_pages` returns
exactly `["المقدمة", "الفصل الأول: الدوال"]` in order; the Chunker
yields exactly one chunk tagged page 1 whose word count (9) is below
600; and `assign_sections_smart` tags that chunk with "المقدمة", the
first-detected of the two sections occurring in the chunk's prefix. -/
theorem end_to_end_scenario :
    MainPy.extract_sections_from_pages
        [⟨1, "المقدمة\nنص عادي هنا.\n\nالفصل الأول: الدوال\nنص آخر."⟩]
      = ["المقدمة", "الفصل الأول: الدوال"] ∧
    MainPy.chunk_text_pages
        [⟨1, "المقدمة\nنص عادي هنا.\n\nالفصل الأول: الدوال\nنص آخر."⟩] 600 100
      = Except.ok [⟨"المقدمة نص عادي هنا. الفصل الأول: الدوال نص آخر.", 1⟩] ∧
    (pySplit "المقدمة نص عادي هنا. الفصل الأول: الدوال نص آخر.").length < 600 ∧
    MainPy.assign_sections_smart
        [⟨"المقدمة نص عادي هنا. الفصل الأول: الدوال نص آخر.", 1⟩]
        ["المقدمة", "الفصل الأول: الدوال"]
      = [⟨"المقدمة نص عادي هنا. الفصل الأول: الدوال نص آخر.", 1, "المقدمة"⟩] :=
  ⟨rfl, rfl, by decide, rfl⟩

/-- C10: every section string emitted by the Heading Extractors
(`extract_sections_from_pages` of main.py over any pages list, and
`extract_sections_from_text` of sample_pdf.py over any text) has length
strictly greater than 3 after normalization, and is never empty or
whitespace-only. -/
theorem extracted_sections_nonempty (pages : List PageText) (text : String) (s : String)
    (h : s ∈ MainPy.extract_sections_from_pages pages ∨
      s ∈ SamplePdf.extract_sections_from_text text) :
    3 < s.data.length ∧ (s.data.all isWS) = false := by
  rcases h with h | h
  · unfold MainPy.extract_sections_from_pages at h
    rcases List.mem_flatten.mp h with ⟨l, hl, hs⟩
    rcases List.mem_map.mp hl with ⟨p, _, rfl⟩
    rcases List.mem_filterMap.mp hs with ⟨line0, _, hg⟩
    dsimp only at hg
    split at hg
    · split at hg
      · next hcond =>
        simp only [Bool.and_eq_true] at hcond
        obtain ⟨hne, hlen⟩ := hcond
        cases hg
        constructor
        · exact of_decide_eq_true hlen
        · apply pyStrip_not_all_ws
          intro hnil
          rw [hnil] at hne
          simp at hne
      · exact absurd hg (by simp)
    · exact absurd hg (by simp)
  · unfold SamplePdf.extract_sections_from_text at h
    rcases List.mem_filterMap.mp h with ⟨line0, _, hg⟩
    dsimp only at hg
    split at hg
    · exact absurd hg (by simp)
    · split at hg
      · split at hg
        · next hcond =>
          simp only [Bool.and_eq_true] at hcond
          obtain ⟨hne, hlen⟩ := hcond
          cases hg
          constructor
          · exact of_decide_eq_true hlen
          · apply pyStrip_not_all_ws
            intro hnil
            rw [hnil] at hne
            simp at hne
        · exact absurd hg (by simp)
      · exact absurd hg (by simp)

/-- Witness for C10: the single-heading page "المقدمة" emits that
7-character section for both extractors. -/
theorem extracted_sections_nonempty_witness :
    3 < ("المقدمة" : String).data.length ∧
      (("المقدمة" : String).data.all isWS) = false :=
  extracted_sections_nonempty [⟨1, "المقدمة"⟩] "" "المقدمة" (Or.inl (by decide))
